import Mathlib

/-!
Shallow embedding of the Pionex USDT trading agent (src/agent.py).

Python floats are modelled as rationals (ℚ); exchange-gateway calls and
HTTP calls are modelled through explicit environments whose fields give
the outcome of each external call (`none` standing for a raised
exception, `some v` for a normal return).  Python truthiness tests such
as `if not rsi` are translated faithfully: both `None` and `0` are
falsy.
-/

namespace Agent

/-- One OHLCV candle `[timestamp, open, high, low, close, volume]`
(agent.py line 115).  Only the close price (index 4) is read by the
indicator. -/
structure Candle where
  timestamp : ℚ
  o : ℚ
  h : ℚ
  l : ℚ
  close : ℚ
  volume : ℚ
deriving DecidableEq, Repr

/-- A position record as registered in `state["open_positions"]`
(agent.py lines 187-192). -/
structure Position where
  symbol : String
  entry_price : ℚ
  amount_base : ℚ
  amount_usdt : ℚ
  take_profit_price : ℚ
  stop_loss_price : ℚ
deriving DecidableEq, Repr

/-- The persisted trading state (agent.py line 102).  The Python dict
`open_positions` (order-id → position) is modelled as an association
list in insertion order. -/
structure TradingState where
  open_positions : List (String × Position)
  total_budget_usdt : ℚ
  available_budget_usdt : ℚ
deriving DecidableEq, Repr

/-- Result of `exchange.create_order(symbol, 'market', 'buy', ...)`:
the fields of the returned order dict that agent.py reads
(lines 175-180). -/
structure BuyOrder where
  id : String
  price : Option ℚ
  filled : Option ℚ
deriving DecidableEq, Repr

/-- Result of the market sell order issued when closing a position:
the fields read at agent.py lines 235-243. -/
structure SellOrder where
  cost : Option ℚ
  price : Option ℚ
  filled : Option ℚ
deriving DecidableEq, Repr

/-- The per-symbol market metadata looked up at agent.py lines 160-162:
`limits.cost.min` and `limits.amount.min`, each possibly absent. -/
structure Market where
  min_cost : Option ℚ
  min_amount : Option ℚ
deriving DecidableEq, Repr

/-- Outcomes of all exchange-gateway calls made during one cycle.
`price s` is what `get_current_price s` returns: `none` when
`fetch_ticker` raised (the except branch, agent.py line 148), otherwise
the ticker's last price.  `sell oid` is the outcome of the market sell
closing position `oid` (`none` = `create_order` raised).  `buy s` is
the outcome of the market buy for symbol `s` (`none` = raised).
`ohlcv s` is what `get_ohlcv s` returns (empty on any error). -/
structure Env where
  price : String → Option ℚ
  sell : String → Option SellOrder
  buy : String → Option BuyOrder
  market : String → Market
  ohlcv : String → List Candle

/-- The environment-derived configuration constants of agent.py
lines 21-24, threaded explicitly. -/
structure Config where
  take_profit_pct : ℚ
  stop_loss_pct : ℚ
  trade_amount : ℚ
deriving DecidableEq, Repr

/-- Default configuration: TAKE_PROFIT_PCT = 0.05, STOP_LOSS_PCT = 0.02,
TRADE_AMOUNT_PER_COIN_USDT = 10.0. -/
def defaultConfig : Config :=
  { take_profit_pct := 5/100, stop_loss_pct := 2/100, trade_amount := 10 }

/-- SYMBOLS_TO_TRADE (agent.py line 20). -/
def SYMBOLS_TO_TRADE : List String :=
  ["SHIB/USDT", "DOGE/USDT", "PEPE/USDT", "BTC/USDT", "ETH/USDT"]

/-! ## RSI computation (agent.py lines 122-140) -/

/-- `closes = [candle[4] for candle in ohlcv]` (line 125). -/
def closes (ohlcv : List Candle) : List ℚ :=
  ohlcv.map (fun c => c.close)

/-- `deltas = [closes[i] - closes[i-1] for i in range(1, len(closes))]`
(line 126): pairwise differences of consecutive closes. -/
def deltas (l : List ℚ) : List ℚ :=
  List.zipWith (fun prev cur => cur - prev) l l.tail

/-- `gains = [delta if delta > 0 else 0 for delta in deltas]` (line 127). -/
def gainsOf (ds : List ℚ) : List ℚ :=
  ds.map (fun d => if 0 < d then d else 0)

/-- `losses = [-delta if delta < 0 else 0 for delta in deltas]` (line 128). -/
def lossesOf (ds : List ℚ) : List ℚ :=
  ds.map (fun d => if d < 0 then -d else 0)

/-- The seed average `sum(l[:period]) / period` (lines 130-131).  Note
that when `l` has fewer than `period` entries the slice is short but
the divisor is still `period`. -/
def seedAvg (l : List ℚ) (period : ℕ) : ℚ :=
  (l.take period).sum / (period : ℚ)

/-- Wilder's smoothing loop (lines 133-135), folded over the
gain/loss pairs with index ≥ period. -/
def wilder (period : ℕ) : List (ℚ × ℚ) → ℚ → ℚ → ℚ × ℚ
  | [], ag, al => (ag, al)
  | p :: rest, ag, al =>
      wilder period rest
        ((ag * ((period : ℚ) - 1) + p.1) / (period : ℚ))
        ((al * ((period : ℚ) - 1) + p.2) / (period : ℚ))

/-- `calculate_rsi(ohlcv, period)` (lines 122-140).  Returns `none`
exactly when `not ohlcv or len(ohlcv) < period`. -/
def calculate_rsi (ohlcv : List Candle) (period : ℕ) : Option ℚ :=
  if ohlcv.isEmpty ∨ ohlcv.length < period then none
  else
    let ds := deltas (closes ohlcv)
    let gains := gainsOf ds
    let losses := lossesOf ds
    let res := wilder period ((gains.drop period).zip (losses.drop period))
        (seedAvg gains period) (seedAvg losses period)
    if res.2 = 0 then some 100
    else some (100 - 100 / (1 + res.1 / res.2))

/-! ## Position management (agent.py lines 202-256) -/

/-- The exit decision for one position at a fetched current price
(agent.py lines 218-225): take-profit is tested first, stop-loss only
in the elif. -/
def exitReason (pos : Position) (current : ℚ) : Option String :=
  if pos.take_profit_price ≤ current then some "take_profit"
  else if current ≤ pos.stop_loss_price then some "stop_loss"
  else none

/-- The effect of one iteration of the position-management loop on one
position (agent.py lines 205-253): the deltas it contributes to
`available_budget_usdt` and `total_budget_usdt`, whether it was marked
for removal, and the result-record types it published.  A fetched
price of `none` models a raised `fetch_ticker`; Python's
`if not current_price` also treats a price of `0` as absent. -/
structure StepOut where
  availDelta : ℚ
  totalDelta : ℚ
  closed : Bool
  published : List String
deriving DecidableEq, Repr

def managePositionStep (env : Env) (order_id : String) (pos : Position) : StepOut :=
  match env.price pos.symbol with
  | none => { availDelta := 0, totalDelta := 0, closed := false, published := [] }
  | some current =>
    if current = 0 then
      { availDelta := 0, totalDelta := 0, closed := false, published := [] }
    else
      match exitReason pos current with
      | none => { availDelta := 0, totalDelta := 0, closed := false, published := [] }
      | some _reason =>
        match env.sell order_id with
        | none =>
          { availDelta := 0, totalDelta := 0, closed := false, published := ["error"] }
        | some so =>
          let exit_value_usdt := so.cost.getD (pos.amount_base * current)
          let pnl := exit_value_usdt - pos.amount_usdt
          { availDelta := exit_value_usdt, totalDelta := pnl, closed := true,
            published := ["order_close"] }

/-- Accumulated effect of the whole management loop over the (snapshot)
position list: summed budget deltas, the `positions_to_close` key list,
and the published record types, in iteration order. -/
structure LoopOut where
  availDelta : ℚ
  totalDelta : ℚ
  toClose : List String
  published : List String
deriving DecidableEq, Repr

def manageLoop (env : Env) : List (String × Position) → LoopOut
  | [] => { availDelta := 0, totalDelta := 0, toClose := [], published := [] }
  | (oid, pos) :: rest =>
    let s := managePositionStep env oid pos
    let r := manageLoop env rest
    { availDelta := s.availDelta + r.availDelta,
      totalDelta := s.totalDelta + r.totalDelta,
      toClose := (if s.closed then [oid] else []) ++ r.toClose,
      published := s.published ++ r.published }

structure ManageOut where
  state : TradingState
  published : List String
deriving Repr

/-- `manage_positions(state)` (agent.py lines 202-256): iterate a copy
of the open positions, accumulate budget updates and the list of keys
to delete, and only after the loop delete those keys. -/
def manage_positions (env : Env) (state : TradingState) : ManageOut :=
  let r := manageLoop env state.open_positions
  { state :=
      { open_positions :=
          state.open_positions.filter (fun p => !(r.toClose.contains p.1)),
        total_budget_usdt := state.total_budget_usdt + r.totalDelta,
        available_budget_usdt := state.available_budget_usdt + r.availDelta },
    published := r.published }

/-! ## Order placement (agent.py lines 150-200) -/

structure PlaceOut where
  order : Option BuyOrder
  state : TradingState
  published : List String
deriving Repr

/-- `place_order(symbol, side, amount_usdt, current_price, state)`
(agent.py lines 150-200).  `env.buy symbol = none` models
`create_order` raising; on that path the except branch publishes an
`"error"` record and returns `None` with no state mutation.  On the
success path an `"order_open"` record is published, and for a buy the
position is registered and the available budget decremented. -/
def place_order (cfg : Config) (env : Env) (symbol side : String)
    (amount_usdt current_price : ℚ) (state : TradingState) : PlaceOut :=
  if state.available_budget_usdt < amount_usdt ∧ side = "buy" then
    { order := none, state := state, published := [] }
  else
    let amount_base := amount_usdt / current_price
    let market := env.market symbol
    let min_cost := market.min_cost.getD (1/10)
    let min_amount := market.min_amount.getD 0
    if amount_usdt < min_cost then
      { order := none, state := state, published := [] }
    else if amount_base < min_amount then
      { order := none, state := state, published := [] }
    else
      match env.buy symbol with
      | none => { order := none, state := state, published := ["error"] }
      | some order =>
        let price_executed := order.price.getD current_price
        let amount_filled_base := order.filled.getD amount_base
        if side = "buy" then
          { order := some order,
            state :=
              { open_positions := state.open_positions ++
                  [(order.id,
                    { symbol := symbol, entry_price := price_executed,
                      amount_base := amount_filled_base,
                      amount_usdt := amount_usdt,
                      take_profit_price := price_executed * (1 + cfg.take_profit_pct),
                      stop_loss_price := price_executed * (1 - cfg.stop_loss_pct) })],
                total_budget_usdt := state.total_budget_usdt,
                available_budget_usdt := state.available_budget_usdt - amount_usdt },
            published := ["order_open"] }
        else
          { order := some order, state := state, published := ["order_open"] }

/-! ## Cycle orchestration (agent.py lines 258-312) -/

structure ScanOut where
  state : TradingState
  published : List String
  attempts : List String
deriving Repr

/-- The new-opportunity scan (agent.py lines 274-308).  Before each
symbol the position count is re-checked (`break` at line 275).  The
guard `if not rsi or not current_price` treats both `None` and `0` as
unavailable.  `attempts` records the symbols for which `place_order`
was actually invoked. -/
def scanLoop (cfg : Config) (env : Env) :
    List String → TradingState → ScanOut
  | [], s => { state := s, published := [], attempts := [] }
  | symbol :: rest, s =>
    if 3 ≤ s.open_positions.length then
      { state := s, published := [], attempts := [] }
    else
      if (env.ohlcv symbol).isEmpty then scanLoop cfg env rest s
      else
        match calculate_rsi (env.ohlcv symbol) 14, env.price symbol with
        | some rsi, some current_price =>
          if rsi = 0 ∨ current_price = 0 then scanLoop cfg env rest s
          else if s.open_positions.any (fun p => p.2.symbol == symbol) then
            scanLoop cfg env rest s
          else if rsi < 30 then
            let po := place_order cfg env symbol "buy" cfg.trade_amount current_price s
            let r := scanLoop cfg env rest po.state
            { state := r.state, published := po.published ++ r.published,
              attempts := symbol :: r.attempts }
          else scanLoop cfg env rest s
        | _, _ => scanLoop cfg env rest s

structure CycleOut where
  state : TradingState
  published : List String
  attempts : List String
  saved : Option TradingState
deriving Repr

/-- `run_trading_cycle()` (agent.py lines 258-312), starting from the
loaded state.  After `manage_positions`, if the open-position count is
at least 3 the state is saved and the function returns (lines 267-271)
— note no record is published on this path beyond what
`manage_positions` itself published.  Otherwise the symbol scan runs,
the state is saved, and a `"cycle_summary"` record is published
(lines 310-312). -/
def run_trading_cycle (cfg : Config) (env : Env) (state0 : TradingState) : CycleOut :=
  let m := manage_positions env state0
  if 3 ≤ m.state.open_positions.length then
    { state := m.state, published := m.published, attempts := [],
      saved := some m.state }
  else
    let sc := scanLoop cfg env SYMBOLS_TO_TRADE m.state
    { state := sc.state, published := m.published ++ sc.published ++ ["cycle_summary"],
      attempts := sc.attempts, saved := some sc.state }

/-! ## Result logger (agent.py lines 45-73) -/

/-- The fields of the GET response that `save_result` reads: the HTTP
status and the `sha` field of the JSON body (absent models a body
without that key). -/
structure GetResponse where
  status : ℕ
  sha : Option String
deriving DecidableEq, Repr

/-- Outcomes of the external calls made by one `save_result`
invocation.  `dumps` is the outcome of `json.dumps(data, indent=2)`:
`none` models a `TypeError` on non-JSON-serializable data — this call
sits OUTSIDE every try block (line 51).  `getResponse = none` models
`requests.get` raising; `putStatus = none` models `requests.put`
raising, otherwise it is the PUT status code fed to
`raise_for_status()`. -/
structure LoggerEnv where
  dumps : Option String
  getResponse : Option GetResponse
  putStatus : Option ℕ
deriving DecidableEq, Repr

/-- What one `save_result` call produced when it returned normally:
the boolean outcome and the `sha` field included in the PUT payload
(present only when the GET succeeded with status 200 and a sha). -/
structure SaveOutcome where
  ok : Bool
  payloadSha : Option String
deriving DecidableEq, Repr

/-- `ResultLogger.save_result(data, result_type)` (agent.py
lines 45-73).  `Except.error` models an exception escaping the method.
`json.dumps` runs before any try, so a serialization failure
propagates.  A GET failure is swallowed (lines 62-63) and the payload
simply carries no sha.  The PUT try returns `False` on a raised
request or on `raise_for_status` firing (status 400-599), `True`
otherwise. -/
def save_result (env : LoggerEnv) : Except String SaveOutcome :=
  match env.dumps with
  | none => Except.error "TypeError: not JSON serializable"
  | some _content =>
    let sha : Option String :=
      match env.getResponse with
      | some r => if r.status = 200 then r.sha else none
      | none => none
    match env.putStatus with
    | none => Except.ok { ok := false, payloadSha := sha }
    | some status =>
      if 400 ≤ status ∧ status < 600 then
        Except.ok { ok := false, payloadSha := sha }
      else
        Except.ok { ok := true, payloadSha := sha }

/-! ## Top-level entry point (agent.py lines 325-331) -/

structure MainOut where
  exitCode : ℕ
  published : List String
  loggedError : Bool
  printedTrace : Bool
deriving DecidableEq, Repr

/-- The `try/except` around `trader.run_trading_cycle()` (agent.py
lines 325-331), as a function of the cycle's outcome (`Except.error e`
models an exception escaping `run_trading_cycle`).  The except branch
logs the error, publishes an `"error"` record and prints a traceback;
it neither re-raises nor calls `sys.exit`, so the script then falls
off its end and the interpreter exits with status 0 in both
branches. -/
def mainAfterInit (cycleOutcome : Except String Unit) : MainOut :=
  match cycleOutcome with
  | Except.ok _ =>
    { exitCode := 0, published := [], loggedError := false, printedTrace := false }
  | Except.error _ =>
    { exitCode := 0, published := ["error"], loggedError := true, printedTrace := true }

/-! ## Concrete fixtures -/

/-- A candle whose close is `q` (the indicator only reads closes). -/
def mkC (q : ℚ) : Candle :=
  { timestamp := 0, o := 0, h := 0, l := 0, close := q, volume := 0 }

/-- 15 candles with strictly increasing closes 1..15. -/
def ex15inc : List Candle :=
  [mkC 1, mkC 2, mkC 3, mkC 4, mkC 5, mkC 6, mkC 7, mkC 8, mkC 9, mkC 10,
   mkC 11, mkC 12, mkC 13, mkC 14, mkC 15]

/-- 14 candles with strictly increasing closes 1..14: exactly `period`
candles for period 14, hence only 13 deltas. -/
def ex14inc : List Candle :=
  [mkC 1, mkC 2, mkC 3, mkC 4, mkC 5, mkC 6, mkC 7, mkC 8, mkC 9, mkC 10,
   mkC 11, mkC 12, mkC 13, mkC 14]

/-- 15 candles with strictly decreasing closes 15..1: every delta is a
loss, so RSI evaluates to exactly 0. -/
def ex15dec : List Candle :=
  [mkC 15, mkC 14, mkC 13, mkC 12, mkC 11, mkC 10, mkC 9, mkC 8, mkC 7, mkC 6,
   mkC 5, mkC 4, mkC 3, mkC 2, mkC 1]

/-- An environment in which every gateway call fails (prices and
orders raise, candle fetches return nothing). -/
def envNone : Env :=
  { price := fun _ => none, sell := fun _ => none, buy := fun _ => none,
    market := fun _ => { min_cost := none, min_amount := none },
    ohlcv := fun _ => [] }

/-- A sample position: entry 100, take-profit 105, stop-loss 98,
0.1 base units bought for 10 USDT. -/
def posA : Position :=
  { symbol := "BTC/USDT", entry_price := 100, amount_base := 1/10,
    amount_usdt := 10, take_profit_price := 105, stop_loss_price := 98 }

/-- A state holding three open positions (the configured maximum). -/
def state3 : TradingState :=
  { open_positions := [("o1", posA), ("o2", posA), ("o3", posA)],
    total_budget_usdt := 40, available_budget_usdt := 10 }

/-- A state holding one open position. -/
def stateOne : TradingState :=
  { open_positions := [("o1", posA)],
    total_budget_usdt := 40, available_budget_usdt := 30 }

/-- The fresh default state (no positions, budget 40). -/
def st0 : TradingState :=
  { open_positions := [], total_budget_usdt := 40, available_budget_usdt := 40 }

/-- Environment for the C5 witness: the price 106 triggers posA's
take-profit, and every sell order raises. -/
def envC5 : Env :=
  { price := fun _ => some 106, sell := fun _ => none, buy := fun _ => none,
    market := fun _ => { min_cost := none, min_amount := none },
    ohlcv := fun _ => [] }

/-- Environment for the C6 witness: the price 106 triggers posA's
take-profit and the sell succeeds with reported cost 12. -/
def envC6 : Env :=
  { price := fun _ => some 106,
    sell := fun _ => some { cost := some 12, price := some 106, filled := some (1/10) },
    buy := fun _ => none,
    market := fun _ => { min_cost := none, min_amount := none },
    ohlcv := fun _ => [] }

/-- Environment for the C7 witness: a buy succeeds with fill price 2. -/
def envC7 : Env :=
  { price := fun _ => some 2, sell := fun _ => none,
    buy := fun _ => some { id := "ord1", price := some 2, filled := none },
    market := fun _ => { min_cost := none, min_amount := none },
    ohlcv := fun _ => [] }

/-- Environment for the C10 witness: candle data whose RSI is exactly
0 and a ticker whose last price is 0. -/
def envRsi0 : Env :=
  { price := fun _ => some 0, sell := fun _ => none, buy := fun _ => none,
    market := fun _ => { min_cost := none, min_amount := none },
    ohlcv := fun _ => ex15dec }

/-- Logger environment for the C3 counterexample: the data is not JSON
serializable (`dumps` raises). -/
def loggerEnvBad : LoggerEnv :=
  { dumps := none, getResponse := none, putStatus := some 201 }

/-- Logger environment for the C3 witness: serializable data, GET
failure swallowed, PUT succeeds with status 201. -/
def loggerEnvOk : LoggerEnv :=
  { dumps := some "content", getResponse := none, putStatus := some 201 }

/-! ## Helper lemmas about the RSI computation -/

theorem deltas_nil : deltas [] = [] := rfl

theorem deltas_cons_cons (a b : ℚ) (t : List ℚ) :
    deltas (a :: b :: t) = (b - a) :: deltas (b :: t) := rfl

theorem deltas_pos {l : List ℚ} (h : List.Chain' (· < ·) l) :
    ∀ d ∈ deltas l, 0 < d := by
  induction l with
  | nil => intro d hd; simp [deltas] at hd
  | cons a t ih =>
    cases t with
    | nil => intro d hd; simp [deltas] at hd
    | cons b t2 =>
      rw [List.chain'_cons] at h
      intro d hd
      rw [deltas_cons_cons] at hd
      rcases List.mem_cons.mp hd with h1 | h2
      · subst h1; exact sub_pos.mpr h.1
      · exact ih h.2 d h2

theorem lossesOf_eq_zero {ds : List ℚ} (h : ∀ d ∈ ds, 0 < d) :
    ∀ x ∈ lossesOf ds, x = 0 := by
  intro x hx
  rcases List.mem_map.mp hx with ⟨d, hd, rfl⟩
  rw [if_neg (not_lt.mpr (h d hd).le)]

theorem wilder_snd_zero (period : ℕ) (pairs : List (ℚ × ℚ)) :
    (∀ p ∈ pairs, p.2 = 0) → ∀ ag : ℚ, (wilder period pairs ag 0).2 = 0 := by
  induction pairs with
  | nil => intro _ ag; simp [wilder]
  | cons p rest ih =>
    intro h ag
    have hp : p.2 = 0 := h p (List.mem_cons_self _ _)
    have hrest : ∀ q ∈ rest, q.2 = 0 := fun q hq => h q (List.mem_cons_of_mem _ hq)
    simp only [wilder, hp, zero_mul, add_zero, zero_div]
    exact ih hrest _

theorem deltas_length (l : List ℚ) : (deltas l).length = l.length - 1 := by
  simp only [deltas, List.length_zipWith, List.length_tail]
  omega

theorem calculate_rsi_isSome {ohlcv : List Candle} {period : ℕ}
    (hp : 1 ≤ period) (h : period ≤ ohlcv.length) :
    calculate_rsi ohlcv period ≠ none := by
  have hcond : ¬(ohlcv.isEmpty = true ∨ ohlcv.length < period) := by
    rintro (hc | hc)
    · rw [List.isEmpty_iff] at hc
      subst hc
      simp at h
      omega
    · omega
  rw [calculate_rsi, if_neg hcond]
  dsimp only
  split <;> simp

/-! ## Claim C8 -/

/-- C8: for every candle sequence of length at least period+1 whose
close prices are strictly monotonically increasing (all gains, no
losses), `calculate_rsi` returns exactly 100, the defined limit when
the final average loss equals 0. -/
theorem c8_theorem (ohlcv : List Candle) (period : ℕ)
    (hlen : period + 1 ≤ ohlcv.length)
    (hmono : List.Chain' (· < ·) (closes ohlcv)) :
    calculate_rsi ohlcv period = some 100 := by
  have hcond : ¬(ohlcv.isEmpty = true ∨ ohlcv.length < period) := by
    rintro (hc | hc)
    · rw [List.isEmpty_iff] at hc
      subst hc
      simp at hlen
    · omega
  have hds : ∀ d ∈ deltas (closes ohlcv), 0 < d := deltas_pos hmono
  have hlosses : ∀ x ∈ lossesOf (deltas (closes ohlcv)), x = 0 := lossesOf_eq_zero hds
  have hseed : seedAvg (lossesOf (deltas (closes ohlcv))) period = 0 := by
    unfold seedAvg
    rw [List.sum_eq_zero (fun x hx => hlosses x (List.take_subset _ _ hx)), zero_div]
  have hpairs : ∀ p ∈ ((gainsOf (deltas (closes ohlcv))).drop period).zip
      ((lossesOf (deltas (closes ohlcv))).drop period), p.2 = 0 := by
    intro p hp
    obtain ⟨p1, p2⟩ := p
    exact hlosses p2 (List.drop_subset _ _ (List.of_mem_zip hp).2)
  rw [calculate_rsi, if_neg hcond]
  dsimp only
  rw [hseed, if_pos (wilder_snd_zero period _ hpairs _)]

/-- C8 witness: the increasing 15-candle fixture yields RSI exactly
100 at period 14. -/
theorem c8_witness : calculate_rsi ex15inc 14 = some 100 :=
  c8_theorem ex15inc 14 (by norm_num [ex15inc])
    (by norm_num [ex15inc, closes, mkC])

/-! ## Claim C4 -/

/-- C4 (amended): for a candle sequence of length at least `period`
(with `period ≥ 1`) `calculate_rsi` produces a value, and its seed
averages sum the first `min(period, length−1)` delta-derived entries
and divide by `period`; only for length ≥ period+1 is that exactly
`period` entries, while for exactly `period` candles it is `period−1`
entries (still divided by `period`). -/
theorem c4_theorem (ohlcv : List Candle) (period : ℕ)
    (hp : 1 ≤ period) (h : period ≤ ohlcv.length) :
    calculate_rsi ohlcv period ≠ none ∧
    ((gainsOf (deltas (closes ohlcv))).take period).length
      = min period (ohlcv.length - 1) ∧
    (period + 1 ≤ ohlcv.length →
      ((gainsOf (deltas (closes ohlcv))).take period).length = period) ∧
    (ohlcv.length = period →
      ((gainsOf (deltas (closes ohlcv))).take period).length = period - 1) := by
  have hglen : (gainsOf (deltas (closes ohlcv))).length = ohlcv.length - 1 := by
    simp [gainsOf, deltas_length, closes]
  refine ⟨calculate_rsi_isSome hp h, ?_, ?_, ?_⟩
  · rw [List.length_take, hglen]
  · intro hh
    rw [List.length_take, hglen]
    omega
  · intro hh
    rw [List.length_take, hglen]
    omega

/-- C4 witness: at the 14-candle fixture with period 14 the RSI is
produced and the seed takes 13 = period−1 entries. -/
theorem c4_witness :
    calculate_rsi ex14inc 14 ≠ none ∧
    ((gainsOf (deltas (closes ex14inc))).take 14).length
      = min 14 (ex14inc.length - 1) ∧
    (14 + 1 ≤ ex14inc.length →
      ((gainsOf (deltas (closes ex14inc))).take 14).length = 14) ∧
    (ex14inc.length = 14 →
      ((gainsOf (deltas (closes ex14inc))).take 14).length = 14 - 1) :=
  c4_theorem ex14inc 14 (by norm_num) (by norm_num [ex14inc])

/-- C4 counterexample: with exactly 14 candles (satisfying the stated
precondition, since a value is produced), only 13 gain entries exist,
so the seed does not sum `period` entries, and its value 13/14 is not
the mean of the gain entries it does sum. -/
theorem c4_counterexample :
    calculate_rsi ex14inc 14 ≠ none ∧
    (gainsOf (deltas (closes ex14inc))).length = 13 ∧
    seedAvg (gainsOf (deltas (closes ex14inc))) 14 = 13/14 ∧
    seedAvg (gainsOf (deltas (closes ex14inc))) 14 ≠
      (gainsOf (deltas (closes ex14inc))).sum
        / ((gainsOf (deltas (closes ex14inc))).length : ℚ) := by
  refine ⟨calculate_rsi_isSome (by norm_num) (by norm_num [ex14inc]), ?_, ?_, ?_⟩
  · norm_num [ex14inc, closes, deltas, gainsOf, mkC]
  · norm_num [ex14inc, closes, deltas, gainsOf, seedAvg, mkC]
  · norm_num [ex14inc, closes, deltas, gainsOf, seedAvg, mkC]

/-! ## Helper lemmas about position management -/

theorem manageLoop_append (env : Env) (l1 l2 : List (String × Position)) :
    (manageLoop env (l1 ++ l2)).availDelta
      = (manageLoop env l1).availDelta + (manageLoop env l2).availDelta ∧
    (manageLoop env (l1 ++ l2)).totalDelta
      = (manageLoop env l1).totalDelta + (manageLoop env l2).totalDelta ∧
    (manageLoop env (l1 ++ l2)).toClose
      = (manageLoop env l1).toClose ++ (manageLoop env l2).toClose ∧
    (manageLoop env (l1 ++ l2)).published
      = (manageLoop env l1).published ++ (manageLoop env l2).published := by
  induction l1 with
  | nil => simp [manageLoop]
  | cons p rest ih =>
    obtain ⟨k, pos⟩ := p
    simp only [List.cons_append, manageLoop, List.append_eq]
    exact ⟨by rw [ih.1, add_assoc], by rw [ih.2.1, add_assoc],
      by rw [ih.2.2.1, List.append_assoc], by rw [ih.2.2.2, List.append_assoc]⟩

theorem step_sell_none {env : Env} {oid : String} (pos : Position)
    (h : env.sell oid = none) :
    (managePositionStep env oid pos).availDelta = 0 ∧
    (managePositionStep env oid pos).totalDelta = 0 ∧
    (managePositionStep env oid pos).closed = false := by
  unfold managePositionStep
  cases hp : env.price pos.symbol with
  | none => simp
  | some c =>
    dsimp only
    split
    · simp
    · cases hr : exitReason pos c with
      | none => simp
      | some r => simp [h]

theorem toClose_mem {env : Env} {l : List (String × Position)} {oid : String}
    (h : oid ∈ (manageLoop env l).toClose) :
    ∃ pos, (oid, pos) ∈ l ∧ (managePositionStep env oid pos).closed = true := by
  induction l with
  | nil => simp [manageLoop] at h
  | cons p rest ih =>
    obtain ⟨k, q⟩ := p
    simp only [manageLoop, List.mem_append] at h
    rcases h with h | h
    · by_cases hc : (managePositionStep env k q).closed = true
      · rw [if_pos hc] at h
        rcases List.mem_singleton.mp h with rfl
        exact ⟨q, List.mem_cons_self _ _, hc⟩
      · rw [if_neg hc] at h
        simp at h
    · obtain ⟨pos, hm, hcl⟩ := ih h
      exact ⟨pos, List.mem_cons_of_mem _ hm, hcl⟩

/-! ## Claim C5 -/

/-- C5: if the gateway raises while closing a triggered exit, that
position remains in open_positions when `manage_positions` returns,
and the budgets are exactly what they would be had that position not
been there at all (its contribution to both budget updates is zero);
removals are committed only after the whole loop, which the two-phase
structure of `manage_positions` realises. -/
theorem c5_theorem (env : Env) (s : TradingState) (oid : String) (pos : Position) (c : ℚ)
    (hmem : (oid, pos) ∈ s.open_positions)
    (hprice : env.price pos.symbol = some c) (hc : c ≠ 0)
    (htrig : exitReason pos c ≠ none)
    (hfail : env.sell oid = none) :
    (oid, pos) ∈ (manage_positions env s).state.open_positions ∧
    (manage_positions env s).state.available_budget_usdt
      = (manage_positions env
          { s with open_positions := s.open_positions.erase (oid, pos) }).state.available_budget_usdt ∧
    (manage_positions env s).state.total_budget_usdt
      = (manage_positions env
          { s with open_positions := s.open_positions.erase (oid, pos) }).state.total_budget_usdt := by
  obtain ⟨ops, tb, ab⟩ := s
  simp only at hmem
  refine ⟨?_, ?_, ?_⟩
  · rw [manage_positions]
    dsimp only
    rw [List.mem_filter]
    refine ⟨hmem, ?_⟩
    simp only [Bool.not_eq_true']
    by_contra hcon
    rw [Bool.not_eq_false] at hcon
    have hoid : oid ∈ (manageLoop env ops).toClose := by simpa using hcon
    obtain ⟨pos2, _, hcl⟩ := toClose_mem hoid
    rw [(step_sell_none pos2 hfail).2.2] at hcl
    exact Bool.false_ne_true hcl
  · obtain ⟨l1, l2, _, hsplit, herase⟩ := List.exists_erase_eq hmem
    rw [manage_positions, manage_positions]
    dsimp only
    rw [herase, hsplit,
      (manageLoop_append env l1 ((oid, pos) :: l2)).1,
      (manageLoop_append env l1 l2).1]
    simp only [manageLoop, (step_sell_none pos hfail).1, zero_add]
  · obtain ⟨l1, l2, _, hsplit, herase⟩ := List.exists_erase_eq hmem
    rw [manage_positions, manage_positions]
    dsimp only
    rw [herase, hsplit,
      (manageLoop_append env l1 ((oid, pos) :: l2)).2.1,
      (manageLoop_append env l1 l2).2.1]
    simp only [manageLoop, (step_sell_none pos hfail).2.1, zero_add]

/-! ## Claim C6 -/

/-- C6: with a successfully fetched (truthy) price, exit conditions
are evaluated take-profit first, then stop-loss, else no action; and
on a successful close the available budget increases by
exit_value_usdt and the total budget by pnl = exit_value_usdt −
amount_usdt, with the position removed. -/
theorem c6_theorem (env : Env) (s : TradingState) (oid : String) (pos : Position) (c : ℚ)
    (hpos : s.open_positions = [(oid, pos)])
    (hprice : env.price pos.symbol = some c) (hc : c ≠ 0) :
    (pos.take_profit_price ≤ c → exitReason pos c = some "take_profit") ∧
    (c < pos.take_profit_price → c ≤ pos.stop_loss_price →
      exitReason pos c = some "stop_loss") ∧
    (c < pos.take_profit_price → pos.stop_loss_price < c →
      (manage_positions env s).state = s ∧ (manage_positions env s).published = []) ∧
    (∀ so, env.sell oid = some so → exitReason pos c ≠ none →
      (manage_positions env s).state.available_budget_usdt
        = s.available_budget_usdt + so.cost.getD (pos.amount_base * c) ∧
      (manage_positions env s).state.total_budget_usdt
        = s.total_budget_usdt + (so.cost.getD (pos.amount_base * c) - pos.amount_usdt) ∧
      (manage_positions env s).state.open_positions = []) := by
  obtain ⟨ops, tb, ab⟩ := s
  simp only at hpos
  subst hpos
  refine ⟨?_, ?_, ?_, ?_⟩
  · intro h1
    rw [exitReason, if_pos h1]
  · intro h1 h2
    rw [exitReason, if_neg (not_le.mpr h1), if_pos h2]
  · intro h1 h2
    have hr : exitReason pos c = none := by
      rw [exitReason, if_neg (not_le.mpr h1), if_neg (not_le.mpr h2)]
    have hstep : managePositionStep env oid pos =
        { availDelta := 0, totalDelta := 0, closed := false, published := [] } := by
      rw [managePositionStep, hprice]
      dsimp only
      rw [if_neg hc, hr]
    constructor
    · rw [manage_positions]
      simp [manageLoop, hstep]
    · rw [manage_positions]
      simp [manageLoop, hstep]
  · intro so hso htrig
    obtain ⟨r, hr⟩ := Option.ne_none_iff_exists'.mp htrig
    have hstep : managePositionStep env oid pos =
        { availDelta := so.cost.getD (pos.amount_base * c),
          totalDelta := so.cost.getD (pos.amount_base * c) - pos.amount_usdt,
          closed := true, published := ["order_close"] } := by
      rw [managePositionStep, hprice]
      dsimp only
      rw [if_neg hc, hr]
      dsimp only
      rw [hso]
    refine ⟨?_, ?_, ?_⟩ <;>
      · rw [manage_positions]
        simp [manageLoop, hstep]

/-! ## Helper lemma about order placement -/

theorem place_order_order_none {cfg : Config} {env : Env} {symbol side : String}
    {amount_usdt current_price : ℚ} {s : TradingState}
    (h : (place_order cfg env symbol side amount_usdt current_price s).order = none) :
    (place_order cfg env symbol side amount_usdt current_price s).state = s := by
  rw [place_order] at h ⊢
  by_cases h1 : s.available_budget_usdt < amount_usdt ∧ side = "buy"
  · rw [if_pos h1]
  · rw [if_neg h1] at h ⊢
    dsimp only at h ⊢
    by_cases h2 : amount_usdt < ((env.market symbol).min_cost.getD (1/10))
    · rw [if_pos h2]
    · rw [if_neg h2] at h ⊢
      by_cases h3 : amount_usdt / current_price < ((env.market symbol).min_amount.getD 0)
      · rw [if_pos h3]
      · rw [if_neg h3] at h ⊢
        cases hb : env.buy symbol with
        | none => rfl
        | some o =>
          rw [hb] at h
          dsimp only at h
          by_cases hs : side = "buy"
          · rw [if_pos hs] at h
            simp at h
          · rw [if_neg hs] at h
            simp at h

/-! ## Claim C7 -/

/-- C7: a successful buy registers a position with
take_profit_price = entry_price × (1 + take-profit fraction) and
stop_loss_price = entry_price × (1 − stop-loss fraction), where
entry_price is the gateway-reported fill price falling back to the
pre-trade price; available_budget_usdt drops by exactly amount_usdt
and the total budget is untouched; and whenever no order is returned
(including the exception path) the state is unchanged. -/
theorem c7_theorem (cfg : Config) (env : Env) (symbol : String)
    (amount_usdt current_price : ℚ) (s : TradingState) (order : BuyOrder)
    (hbudget : ¬ s.available_budget_usdt < amount_usdt)
    (hmincost : ¬ amount_usdt < ((env.market symbol).min_cost.getD (1/10)))
    (hminamt : ¬ amount_usdt / current_price < ((env.market symbol).min_amount.getD 0))
    (hbuy : env.buy symbol = some order) :
    (place_order cfg env symbol "buy" amount_usdt current_price s).state.open_positions
      = s.open_positions ++
        [(order.id,
          { symbol := symbol,
            entry_price := order.price.getD current_price,
            amount_base := order.filled.getD (amount_usdt / current_price),
            amount_usdt := amount_usdt,
            take_profit_price := order.price.getD current_price * (1 + cfg.take_profit_pct),
            stop_loss_price := order.price.getD current_price * (1 - cfg.stop_loss_pct) })] ∧
    (place_order cfg env symbol "buy" amount_usdt current_price s).state.available_budget_usdt
      = s.available_budget_usdt - amount_usdt ∧
    (place_order cfg env symbol "buy" amount_usdt current_price s).state.total_budget_usdt
      = s.total_budget_usdt ∧
    (place_order cfg env symbol "buy" amount_usdt current_price s).published
      = ["order_open"] ∧
    (∀ (env2 : Env) (sym2 side2 : String) (amt c : ℚ) (st : TradingState),
      (place_order cfg env2 sym2 side2 amt c st).order = none →
      (place_order cfg env2 sym2 side2 amt c st).state = st) := by
  have hres : place_order cfg env symbol "buy" amount_usdt current_price s =
      { order := some order,
        state :=
          { open_positions := s.open_positions ++
              [(order.id,
                { symbol := symbol,
                  entry_price := order.price.getD current_price,
                  amount_base := order.filled.getD (amount_usdt / current_price),
                  amount_usdt := amount_usdt,
                  take_profit_price := order.price.getD current_price * (1 + cfg.take_profit_pct),
                  stop_loss_price := order.price.getD current_price * (1 - cfg.stop_loss_pct) })],
            total_budget_usdt := s.total_budget_usdt,
            available_budget_usdt := s.available_budget_usdt - amount_usdt },
        published := ["order_open"] } := by
    rw [place_order, if_neg (fun hh => hbudget hh.1)]
    dsimp only
    rw [if_neg hmincost, if_neg hminamt, hbuy]
    dsimp only
    rw [if_pos rfl]
  rw [hres]
  exact ⟨rfl, rfl, rfl, rfl, fun env2 sym2 side2 amt c st h => place_order_order_none h⟩

/-! ## Helper lemmas about the entry scan and the cycle -/

theorem manage_positions_length_le (env : Env) (s : TradingState) :
    (manage_positions env s).state.open_positions.length ≤ s.open_positions.length := by
  rw [manage_positions]
  dsimp only
  exact List.length_filter_le _ _

theorem scanLoop_of_ge3 (cfg : Config) (env : Env) (syms : List String) (s : TradingState)
    (h : 3 ≤ s.open_positions.length) :
    scanLoop cfg env syms s = { state := s, published := [], attempts := [] } := by
  cases syms with
  | nil => rfl
  | cons a rest => rw [scanLoop, if_pos h]

theorem place_order_length_le (cfg : Config) (env : Env) (symbol side : String)
    (amount_usdt current_price : ℚ) (s : TradingState) :
    (place_order cfg env symbol side amount_usdt current_price s).state.open_positions.length
      ≤ s.open_positions.length + 1 := by
  rw [place_order]
  by_cases h1 : s.available_budget_usdt < amount_usdt ∧ side = "buy"
  · rw [if_pos h1]
    exact Nat.le_succ _
  · rw [if_neg h1]
    dsimp only
    by_cases h2 : amount_usdt < ((env.market symbol).min_cost.getD (1/10))
    · rw [if_pos h2]
      exact Nat.le_succ _
    · rw [if_neg h2]
      by_cases h3 : amount_usdt / current_price < ((env.market symbol).min_amount.getD 0)
      · rw [if_pos h3]
        exact Nat.le_succ _
      · rw [if_neg h3]
        cases hb : env.buy symbol with
        | none => exact Nat.le_succ _
        | some o =>
          dsimp only
          by_cases hs : side = "buy"
          · rw [if_pos hs]
            simp
          · rw [if_neg hs]
            exact Nat.le_succ _

theorem scanLoop_length_le3 (cfg : Config) (env : Env) (syms : List String) :
    ∀ s : TradingState, s.open_positions.length ≤ 3 →
    (scanLoop cfg env syms s).state.open_positions.length ≤ 3 := by
  induction syms with
  | nil => intro s h; exact h
  | cons a rest ih =>
    intro s h
    rw [scanLoop]
    by_cases h3 : 3 ≤ s.open_positions.length
    · rw [if_pos h3]
      exact h
    · rw [if_neg h3]
      by_cases hoh : (env.ohlcv a).isEmpty
      · rw [if_pos hoh]
        exact ih s h
      · rw [if_neg hoh]
        cases hr : calculate_rsi (env.ohlcv a) 14 with
        | none => exact ih s h
        | some r =>
          cases hp : env.price a with
          | none => exact ih s h
          | some c =>
            dsimp only
            by_cases hz : r = 0 ∨ c = 0
            · rw [if_pos hz]
              exact ih s h
            · rw [if_neg hz]
              by_cases hsym : s.open_positions.any (fun p => p.2.symbol == a)
              · rw [if_pos hsym]
                exact ih s h
              · rw [if_neg hsym]
                by_cases hbuy : r < 30
                · rw [if_pos hbuy]
                  dsimp only
                  refine ih _ ?_
                  have hb := place_order_length_le cfg env a "buy" cfg.trade_amount c s
                  omega
                · rw [if_neg hbuy]
                  exact ih s h

/-! ## Claim C9 -/

/-- C9: starting from at most 3 open positions, `run_trading_cycle`
never lets the count exceed 3; with 3 present after management no
entry attempt is made for any symbol; and the scan stops immediately
whenever the count reaches 3. -/
theorem c9_theorem (cfg : Config) (env : Env) (s0 : TradingState)
    (h : s0.open_positions.length ≤ 3) :
    (run_trading_cycle cfg env s0).state.open_positions.length ≤ 3 ∧
    (3 ≤ (manage_positions env s0).state.open_positions.length →
      (run_trading_cycle cfg env s0).attempts = []) ∧
    (∀ (syms : List String) (s : TradingState), 3 ≤ s.open_positions.length →
      scanLoop cfg env syms s = { state := s, published := [], attempts := [] }) := by
  have hm : (manage_positions env s0).state.open_positions.length ≤ 3 :=
    le_trans (manage_positions_length_le env s0) h
  refine ⟨?_, ?_, fun syms s hs => scanLoop_of_ge3 cfg env syms s hs⟩
  · rw [run_trading_cycle]
    by_cases h3 : 3 ≤ (manage_positions env s0).state.open_positions.length
    · rw [if_pos h3]
      exact hm
    · rw [if_neg h3]
      dsimp only
      exact scanLoop_length_le3 cfg env _ _ hm
  · intro h3
    rw [run_trading_cycle, if_pos h3]

/-- C9 witness: starting from the fresh empty state in the
all-failing environment, the cycle keeps the position count at most 3. -/
theorem c9_witness :
    (run_trading_cycle defaultConfig envNone st0).state.open_positions.length ≤ 3 ∧
    (3 ≤ (manage_positions envNone st0).state.open_positions.length →
      (run_trading_cycle defaultConfig envNone st0).attempts = []) ∧
    (∀ (syms : List String) (s : TradingState), 3 ≤ s.open_positions.length →
      scanLoop defaultConfig envNone syms s
        = { state := s, published := [], attempts := [] }) :=
  c9_theorem defaultConfig envNone st0 (by norm_num [st0])

/-! ## Claim C10 -/

/-- C10: the entry scan's truthiness guard conflates 0 with absence:
an RSI of exactly 0 or a fetched price of exactly 0 makes the scan
skip the symbol without placing a buy (even though RSI 0 < 30), and
`manage_positions` skips a position whose fetched price is 0. -/
theorem c10_theorem :
    (∀ (cfg : Config) (env : Env) (symbol : String) (rest : List String)
      (s : TradingState),
      s.open_positions.length < 3 →
      (env.ohlcv symbol).isEmpty = false →
      calculate_rsi (env.ohlcv symbol) 14 = some 0 →
      scanLoop cfg env (symbol :: rest) s = scanLoop cfg env rest s) ∧
    (∀ (cfg : Config) (env : Env) (symbol : String) (rest : List String)
      (s : TradingState),
      s.open_positions.length < 3 →
      (env.ohlcv symbol).isEmpty = false →
      env.price symbol = some 0 →
      scanLoop cfg env (symbol :: rest) s = scanLoop cfg env rest s) ∧
    (∀ (env : Env) (oid : String) (pos : Position),
      env.price pos.symbol = some 0 →
      managePositionStep env oid pos =
        { availDelta := 0, totalDelta := 0, closed := false, published := [] }) := by
  refine ⟨?_, ?_, ?_⟩
  · intro cfg env symbol rest s hlen hoh hrsi
    rw [scanLoop, if_neg (by omega), if_neg (by simp [hoh]), hrsi]
    cases hp : env.price symbol with
    | none => rfl
    | some c =>
      dsimp only
      rw [if_pos (Or.inl rfl)]
  · intro cfg env symbol rest s hlen hoh hp
    rw [scanLoop, if_neg (by omega), if_neg (by simp [hoh]), hp]
    cases hr : calculate_rsi (env.ohlcv symbol) 14 with
    | none => rfl
    | some r =>
      dsimp only
      rw [if_pos (Or.inr rfl)]
  · intro env oid pos hp
    rw [managePositionStep, hp]
    dsimp only
    rw [if_pos rfl]

/-- C10 witness: in an environment whose candles give RSI exactly 0
and whose ticker price is 0, the scan skips the symbol and position
management skips the position. -/
theorem c10_witness :
    scanLoop defaultConfig envRsi0 ["AAA", "BBB"] st0
      = scanLoop defaultConfig envRsi0 ["BBB"] st0 ∧
    calculate_rsi (envRsi0.ohlcv "AAA") 14 = some 0 ∧
    managePositionStep envRsi0 "o1" posA =
      { availDelta := 0, totalDelta := 0, closed := false, published := [] } := by
  have hrsi : calculate_rsi (envRsi0.ohlcv "AAA") 14 = some 0 := by
    norm_num [envRsi0, calculate_rsi, ex15dec, closes, deltas, gainsOf, lossesOf,
      seedAvg, wilder, mkC]
  refine ⟨?_, hrsi, ?_⟩
  · exact c10_theorem.1 defaultConfig envRsi0 "AAA" ["BBB"] st0
      (by norm_num [st0]) (by norm_num [envRsi0, ex15dec]) hrsi
  · exact c10_theorem.2.2 envRsi0 "o1" posA rfl

/-! ## Helper lemmas about published record types -/

theorem step_published_cases (env : Env) (oid : String) (pos : Position) :
    (managePositionStep env oid pos).published = [] ∨
    (managePositionStep env oid pos).published = ["error"] ∨
    (managePositionStep env oid pos).published = ["order_close"] := by
  rw [managePositionStep]
  cases env.price pos.symbol with
  | none => exact Or.inl rfl
  | some c =>
    dsimp only
    split
    · exact Or.inl rfl
    · cases exitReason pos c with
      | none => exact Or.inl rfl
      | some r =>
        dsimp only
        cases env.sell oid with
        | none => exact Or.inr (Or.inl rfl)
        | some so => exact Or.inr (Or.inr rfl)

theorem manageLoop_published_mem {env : Env} {l : List (String × Position)} {x : String}
    (h : x ∈ (manageLoop env l).published) :
    x = "order_close" ∨ x = "error" := by
  induction l with
  | nil => simp [manageLoop] at h
  | cons p rest ih =>
    obtain ⟨k, q⟩ := p
    simp only [manageLoop, List.mem_append] at h
    rcases h with h | h
    · rcases step_published_cases env k q with hs | hs | hs <;> rw [hs] at h
      · simp at h
      · rw [List.mem_singleton] at h
        exact Or.inr h
      · rw [List.mem_singleton] at h
        exact Or.inl h
    · exact ih h

/-! ## Claim C1 -/

/-- C1 (amended): when the open-position count after
`manage_positions` is at least 3, `run_trading_cycle` skips the entry
scan, persists the state and returns; on this early-return path NO
cycle_summary record is published (the publication at the end of the
normal path is not reached). -/
theorem c1_theorem (cfg : Config) (env : Env) (s0 : TradingState)
    (h : 3 ≤ (manage_positions env s0).state.open_positions.length) :
    run_trading_cycle cfg env s0 =
      { state := (manage_positions env s0).state,
        published := (manage_positions env s0).published,
        attempts := [],
        saved := some (manage_positions env s0).state } ∧
    "cycle_summary" ∉ (run_trading_cycle cfg env s0).published := by
  have hrun : run_trading_cycle cfg env s0 =
      { state := (manage_positions env s0).state,
        published := (manage_positions env s0).published,
        attempts := [],
        saved := some (manage_positions env s0).state } := by
    rw [run_trading_cycle, if_pos h]
  refine ⟨hrun, ?_⟩
  rw [hrun]
  dsimp only
  intro hmem
  have hx : "cycle_summary" = "order_close" ∨ "cycle_summary" = "error" :=
    manageLoop_published_mem hmem
  rcases hx with hx | hx <;> simp at hx

/-- C1 counterexample: with three open positions and every price fetch
failing, the early-return path is taken and no cycle_summary record is
published — refuting the claim that one is published on this path. -/
theorem c1_counterexample :
    3 ≤ (manage_positions envNone state3).state.open_positions.length ∧
    "cycle_summary" ∉ (run_trading_cycle defaultConfig envNone state3).published := by
  constructor
  · simp [manage_positions, manageLoop, managePositionStep, envNone, state3]
  · simp [run_trading_cycle, manage_positions, manageLoop, managePositionStep,
      envNone, state3]

/-- C1 witness: the amended early-return behaviour at the concrete
three-position state. -/
theorem c1_witness :
    run_trading_cycle defaultConfig envNone state3 =
      { state := (manage_positions envNone state3).state,
        published := (manage_positions envNone state3).published,
        attempts := [],
        saved := some (manage_positions envNone state3).state } ∧
    "cycle_summary" ∉ (run_trading_cycle defaultConfig envNone state3).published :=
  c1_theorem defaultConfig envNone state3
    (by simp [manage_positions, manageLoop, managePositionStep, envNone, state3])

/-! ## Claim C2 -/

/-- C2 (amended): on an exception escaping `run_trading_cycle`, the
top-level handler logs the error, publishes an "error" record and
prints a traceback, but then falls through: the process ends with exit
status 0 (a successful exit), not a failed state. -/
theorem c2_theorem (e : String) :
    mainAfterInit (Except.error e) =
      { exitCode := 0, published := ["error"], loggedError := true,
        printedTrace := true } := rfl

/-- C2 counterexample: at a concrete escaping exception the process
exit status is 0, refuting the claimed non-zero (failed) exit. -/
theorem c2_counterexample :
    (mainAfterInit (Except.error "boom")).exitCode = 0 ∧
    (mainAfterInit (Except.error "boom")).published = ["error"] ∧
    (mainAfterInit (Except.error "boom")).loggedError = true ∧
    (mainAfterInit (Except.error "boom")).printedTrace = true :=
  ⟨rfl, rfl, rfl, rfl⟩

/-! ## Claim C3 -/

/-- Normal form of `save_result` when serialization succeeds: it
always returns normally, succeeding unless the PUT raised or had a
4xx/5xx status, and carrying a payload sha only from a 200 GET. -/
theorem save_result_dumps_some (s : String) (g : Option GetResponse) (p : Option ℕ) :
    save_result { dumps := some s, getResponse := g, putStatus := p }
      = Except.ok
          { ok := match p with
              | none => false
              | some status => !(decide (400 ≤ status ∧ status < 600)),
            payloadSha := match g with
              | some r => if r.status = 200 then r.sha else none
              | none => none } := by
  rw [save_result]
  dsimp only
  cases p with
  | none => rfl
  | some status =>
    dsimp only
    by_cases hs : 400 ≤ status ∧ status < 600
    · rw [if_pos hs]
      simp [hs]
    · rw [if_neg hs]
      simp [hs]

/-- C3 (amended): for JSON-serializable data `save_result` never
raises: it returns normally with `true` exactly when the PUT was
submitted and did not fail `raise_for_status` (status outside
400-599), `false` otherwise, with any GET failure swallowed.  (For
non-serializable data the serialization step raises outside every try
block — see the counterexample.) -/
theorem c3_theorem (env : LoggerEnv) (s : String) (h : env.dumps = some s) :
    (∃ o : SaveOutcome, save_result env = Except.ok o) ∧
    (∀ o : SaveOutcome, save_result env = Except.ok o →
      (o.ok = true ↔ ∃ st, env.putStatus = some st ∧ ¬(400 ≤ st ∧ st < 600))) := by
  obtain ⟨d, g, p⟩ := env
  simp only at h
  subst h
  rw [save_result_dumps_some]
  refine ⟨⟨_, rfl⟩, ?_⟩
  intro o ho
  simp only [Except.ok.injEq] at ho
  subst ho
  cases p with
  | none => simp
  | some status =>
    by_cases hs : 400 ≤ status ∧ status < 600
    · simp [hs]
    · simp [hs]
      omega

/-- C3 counterexample: with non-JSON-serializable data the
serialization step raises before any try block, so `save_result` does
raise — refuting "never raises for arbitrary serializable and
non-serializable data". -/
theorem c3_counterexample :
    save_result loggerEnvBad = Except.error "TypeError: not JSON serializable" := rfl

/-- C3 witness: with serializable data, a swallowed GET failure and a
201 PUT, `save_result` returns normally and reports success. -/
theorem c3_witness :
    (∃ o : SaveOutcome, save_result loggerEnvOk = Except.ok o) ∧
    (∀ o : SaveOutcome, save_result loggerEnvOk = Except.ok o →
      (o.ok = true ↔ ∃ st, loggerEnvOk.putStatus = some st ∧ ¬(400 ≤ st ∧ st < 600))) :=
  c3_theorem loggerEnvOk "content" rfl

/-! ## Witnesses for C5, C6 and C7 -/

/-- C5 witness: the price 106 triggers posA's take-profit, the sell
raises, and the position survives with budgets as if it were absent. -/
theorem c5_witness :
    ("o1", posA) ∈ (manage_positions envC5 stateOne).state.open_positions ∧
    (manage_positions envC5 stateOne).state.available_budget_usdt
      = (manage_positions envC5
          { stateOne with
            open_positions := stateOne.open_positions.erase ("o1", posA) }).state.available_budget_usdt ∧
    (manage_positions envC5 stateOne).state.total_budget_usdt
      = (manage_positions envC5
          { stateOne with
            open_positions := stateOne.open_positions.erase ("o1", posA) }).state.total_budget_usdt :=
  c5_theorem envC5 stateOne "o1" posA 106 (by simp [stateOne]) rfl (by norm_num)
    (by rw [exitReason, if_pos (by norm_num [posA])]; simp) rfl

/-- C6 witness: at price 106 the take-profit branch fires first, and
the successful close with reported cost 12 credits the budgets by 12
and by the pnl 12 − 10. -/
theorem c6_witness :
    (posA.take_profit_price ≤ 106 → exitReason posA 106 = some "take_profit") ∧
    ((106 : ℚ) < posA.take_profit_price → (106 : ℚ) ≤ posA.stop_loss_price →
      exitReason posA 106 = some "stop_loss") ∧
    ((106 : ℚ) < posA.take_profit_price → posA.stop_loss_price < 106 →
      (manage_positions envC6 stateOne).state = stateOne ∧
      (manage_positions envC6 stateOne).published = []) ∧
    (∀ so, envC6.sell "o1" = some so → exitReason posA 106 ≠ none →
      (manage_positions envC6 stateOne).state.available_budget_usdt
        = stateOne.available_budget_usdt + so.cost.getD (posA.amount_base * 106) ∧
      (manage_positions envC6 stateOne).state.total_budget_usdt
        = stateOne.total_budget_usdt
            + (so.cost.getD (posA.amount_base * 106) - posA.amount_usdt) ∧
      (manage_positions envC6 stateOne).state.open_positions = []) :=
  c6_theorem envC6 stateOne "o1" posA 106 rfl rfl (by norm_num)

/-- C7 witness: a successful buy of 10 USDT at price 2 with defaults
registers take-profit 2 × 1.05 = 21/10 and stop-loss 2 × 0.98 =
49/25, and the available budget drops from 40 to exactly 30. -/
theorem c7_witness :
    (place_order defaultConfig envC7 "DOGE/USDT" "buy" 10 2 st0).state.open_positions
      = [("ord1",
          { symbol := "DOGE/USDT", entry_price := 2, amount_base := 5,
            amount_usdt := 10, take_profit_price := 21/10,
            stop_loss_price := 49/25 })] ∧
    (place_order defaultConfig envC7 "DOGE/USDT" "buy" 10 2 st0).state.available_budget_usdt
      = 30 ∧
    (place_order defaultConfig envC7 "DOGE/USDT" "buy" 10 2 st0).state.total_budget_usdt
      = 40 ∧
    (place_order defaultConfig envC7 "DOGE/USDT" "buy" 10 2 st0).published
      = ["order_open"] := by
  obtain ⟨h1, h2, h3, h4, _⟩ := c7_theorem defaultConfig envC7 "DOGE/USDT" 10 2 st0
    { id := "ord1", price := some 2, filled := none }
    (by norm_num [st0]) (by norm_num [envC7]) (by norm_num [envC7]) rfl
  refine ⟨?_, ?_, ?_, h4⟩
  · rw [h1]
    norm_num [st0, defaultConfig]
  · rw [h2]
    norm_num [st0]
  · rw [h3]
    norm_num [st0]

end Agent
